import Mathlib

/-!
Verification of the recurrent-layer module (`keras/layers/recurrent.py`).

The file shallowly embeds the data model and the operations of the module:
the generic recurrence driver `Recurrent.call` together with the backend scan
primitive `K.rnn` (the backend is not part of this repository, so the scan is
modelled from the specification's description of it as a fold of a sequence of
inputs under a fixed per-step transition), the per-step transition functions of
`SimpleRNN`, `GRU`, `LSTM` and `AttLSTMCond`, the dropout-constant generators,
`_time_distributed_dense`, `get_initial_state` and `reset_states`.

Tensors are embedded as functions into ℚ (for the exactly-computable parts) or
into ℝ (for the attention/softmax parts, which use `Real.exp` and `Real.tanh`).
Batched computations in the source act independently per sample, so the sample
axis is dropped and a single sample is modelled; the time and feature axes are
kept explicit.
-/

namespace Keras

/-- One inner step of the backend scan.

Modelled from the spec: the backend primitive `K.rnn` ("a generic scan/loop
primitive over a symbolic tensor", "the recurrence that folds a sequence of
inputs into a sequence of hidden states under a fixed per-step transition
function") is not part of this repository.  At each timestep the step function
receives the current input slice and the list of threaded states with the
constants appended; only the leading states are threaded to the next timestep.
The `mask=None` case is modelled (none of the verified claims exercises the
scan-level mask). -/
def kRnnGo {ι σ ο : Type} (step : ι → List σ → ο × List σ) (constants : List σ) :
    List ι → List σ → List ο × List σ
  | [], states => ([], states)
  | xi :: rest, states =>
    let res := step xi (states ++ constants)
    let tail := kRnnGo step constants rest res.2
    (res.1 :: tail.1, tail.2)

/-- Modelled from the spec: the backend scan `K.rnn`.  Returns
`(last_output, outputs, final_states)`; with `go_backwards` the input sequence
is processed in reverse order. -/
def kRnn {ι σ ο : Type} (step : ι → List σ → ο × List σ) (inputs : List ι)
    (initialStates constants : List σ) (goBackwards : Bool) :
    Option ο × List ο × List σ :=
  let xs := if goBackwards then inputs.reverse else inputs
  let r := kRnnGo step constants xs initialStates
  (r.1.getLast?, r.1, r.2)

/-- The configuration and methods of a recurrent layer that `Recurrent.call`
uses: the per-step transition (`step`), input preprocessing
(`preprocess_input`, the base-class default is the identity), the constants
generator (`get_constants`), the initial-state builder (`get_initial_state`),
the stored states and the behaviour flags. -/
structure RecurrentLayer (ι σ ο : Type) where
  step : ι → List σ → ο × List σ
  preprocess : List ι → List ι
  getConstants : List ι → List σ
  getInitialState : List ι → List σ
  numStates : ℕ
  states : List σ
  returnSequences : Bool
  returnState : Bool
  goBackwards : Bool
  stateful : Bool
  unroll : Bool

/-- The errors `Recurrent.call` can raise (both are `ValueError` in the
source; they are distinguished here by site). -/
inductive CallErr where
  | stateCountMismatch (expected got : ℕ)
  | unrollTimeUndefined
  deriving DecidableEq

/-- The value returned by `Recurrent.call`: the output (the full per-timestep
sequence when `return_sequences`, otherwise the last output), the states
appended to the output when `return_state`, and the stored states after the
call (updated by the `stateful` branch). -/
structure CallOut (σ ο : Type) where
  output : Sum (List ο) (Option ο)
  returnedStates : Option (List σ)
  newStoredStates : List σ
  deriving DecidableEq

/-- The initial-state selection at the top of `Recurrent.call`: an explicitly
passed initial state wins; otherwise a stateful layer starts from its stored
states and a non-stateful layer from `get_initial_state`. -/
def selectedInitial {ι σ ο : Type} (L : RecurrentLayer ι σ ο) (inputs : List ι)
    (initialStateArg : Option (List σ)) : List σ :=
  match initialStateArg with
  | some s => s
  | none => if L.stateful then L.states else L.getInitialState inputs

/-- Embedding of `Recurrent.call` (recurrent.py lines 298-366): select the
initial states, check their number against `len(self.states)`, check the
unroll/time-dimension condition, compute the constants, preprocess the input,
run the backend scan, update the stored states when stateful, and assemble the
output according to `return_sequences` and `return_state`. -/
def Recurrent.call {ι σ ο : Type} (L : RecurrentLayer ι σ ο) (timeDimKnown : Bool)
    (inputs : List ι) (initialStateArg : Option (List σ)) :
    Except CallErr (CallOut σ ο) :=
  let initial := selectedInitial L inputs initialStateArg
  if initial.length ≠ L.numStates then
    Except.error (CallErr.stateCountMismatch L.numStates initial.length)
  else if L.unroll ∧ timeDimKnown = false then
    Except.error CallErr.unrollTimeUndefined
  else
    let constants := L.getConstants inputs
    let r := kRnn L.step (L.preprocess inputs) initial constants L.goBackwards
    Except.ok
      { output := if L.returnSequences then Sum.inl r.2.1 else Sum.inr r.1
        returnedStates := if L.returnState then some r.2.2 else none
        newStoredStates := if L.stateful then r.2.2 else L.states }

/-- The canonical indexed recurrence of states: `statesAt 0` is the initial
state list, and `statesAt (t+1)` applies the step function to the input at
timestep `t` and the states at timestep `t` (with the constants appended). -/
def statesAt {ι σ ο : Type} (step : ι → List σ → ο × List σ) (constants : List σ)
    (xs : List ι) (init : List σ) : ℕ → List σ
  | 0 => init
  | t + 1 =>
    match xs[t]? with
    | some xi => (step xi (statesAt step constants xs init t ++ constants)).2
    | none => statesAt step constants xs init t

/-- The canonical indexed recurrence of outputs: the output at timestep `t` is
the first component of the step function applied to the input at `t` and the
states at `t`. -/
def outAt {ι σ ο : Type} (step : ι → List σ → ο × List σ) (constants : List σ)
    (xs : List ι) (init : List σ) (t : ℕ) : Option ο :=
  (xs[t]?).map fun xi => (step xi (statesAt step constants xs init t ++ constants)).1

/-- Embedding of `Recurrent.get_initial_state` (lines 245-252): build an
all-zero tensor of shape `(samples, units)` by taking `K.zeros_like(inputs)`
(shape `(samples, timesteps, input_dim)`), summing it over axes 1 and 2,
expanding the result to `(samples, 1)` and tiling it to `(samples, units)`;
the resulting tensor is replicated once per layer state.  Tensors carry the
sample axis here because the claim is about the shape `(samples, units)`. -/
def Recurrent.getInitialStateZeros (numStates timesteps inputDim units : ℕ)
    (inputs : ℕ → ℕ → ℕ → ℚ) : List (ℕ → ℕ → ℚ) :=
  let zeroLike : ℕ → ℕ → ℕ → ℚ := fun _ _ _ => 0
  let summed : ℕ → ℚ := fun s =>
    ∑ t ∈ Finset.range timesteps, ∑ d ∈ Finset.range inputDim, zeroLike s t d
  let expanded : ℕ → ℕ → ℚ := fun s _ => summed s
  let tiled : ℕ → ℕ → ℚ := fun s _u => expanded s 0
  List.replicate numStates tiled

/-- Embedding of `_time_distributed_dense` (lines 16-60) for one sample:
when `0 < dropout < 1` and in the training phase, one dropout matrix (the
backend sample `sampleMask`, drawn once) is repeated over the time axis and
multiplies the input at every timestep; then every temporal slice is passed
through `y ↦ y ⬝ w + b`. -/
def timeDistributedDense {d o : ℕ} (x : ℕ → Fin d → ℚ) (w : Fin d → Fin o → ℚ)
    (b : Option (Fin o → ℚ)) (dropout : ℚ) (sampleMask : Fin d → ℚ)
    (training : Bool) : ℕ → Fin o → ℚ :=
  let expandedDropoutMatrix : ℕ → Fin d → ℚ := fun _ i => sampleMask i
  let xd : ℕ → Fin d → ℚ :=
    if 0 < dropout ∧ dropout < 1 then
      (if training then fun t i => x t i * expandedDropoutMatrix t i else x)
    else x
  fun t j => (∑ i, xd t i * w i j) + (match b with | some bv => bv j | none => 0)

/-- A dropout constant as produced by `get_constants`: either the scalar
`K.cast_to_floatx(1.)` or a mask tensor; multiplication by it broadcasts. -/
def maskFactor {n : ℕ} (c : Sum ℚ (Fin n → ℚ)) : Fin n → ℚ :=
  match c with
  | Sum.inl s => fun _ => s
  | Sum.inr m => m

/-- Embedding of `SimpleRNN.get_constants` (lines 579-610): the input-dropout
constant is the once-sampled mask in the training phase, the all-ones tensor
otherwise, when `implementation != 0` and `0 < dropout < 1`, and the scalar 1
otherwise; likewise for the recurrent-dropout constant.  `dSample` and
`rSample` stand for the backend samples `K.dropout(ones, rate)`. -/
def SimpleRNN.getConstants {d u : ℕ} (implementation : ℕ) (dropout recurrentDropout : ℚ)
    (training : Bool) (dSample : Fin d → ℚ) (rSample : Fin u → ℚ) :
    Sum ℚ (Fin d → ℚ) × Sum ℚ (Fin u → ℚ) :=
  ( if implementation ≠ 0 ∧ 0 < dropout ∧ dropout < 1 then
      Sum.inr (if training then dSample else fun _ => 1)
    else Sum.inl 1,
    if 0 < recurrentDropout ∧ recurrentDropout < 1 then
      Sum.inr (if training then rSample else fun _ => 1)
    else Sum.inl 1 )

/-- Embedding of `SimpleRNN.step` (lines 556-577) for `implementation != 0`
(for `implementation == 0` the projection and its dropout happen in
`preprocess_input` via `_time_distributed_dense`): the input is multiplied by
the dropout constant `states[1]` only when `0 < dropout < 1`, projected by the
kernel, the bias is added, the previous output is multiplied by the recurrent
dropout constant `states[2]` only when `0 < recurrent_dropout < 1`, and the
activation is applied to the sum of the two projections. -/
def SimpleRNN.step {d u : ℕ} (dropout recurrentDropout : ℚ) (activation : ℚ → ℚ)
    (kernel : Fin d → Fin u → ℚ) (bias : Option (Fin u → ℚ))
    (recurrentKernel : Fin u → Fin u → ℚ) (inputs : Fin d → ℚ)
    (prevOutput : Fin u → ℚ) (dpc : Sum ℚ (Fin d → ℚ)) (rdpc : Sum ℚ (Fin u → ℚ)) :
    Fin u → ℚ :=
  let hin : Fin d → ℚ :=
    if 0 < dropout ∧ dropout < 1 then fun i => inputs i * maskFactor dpc i else inputs
  let h : Fin u → ℚ := fun j =>
    (∑ i, hin i * kernel i j) + (match bias with | some bv => bv j | none => 0)
  let prev : Fin u → ℚ :=
    if 0 < recurrentDropout ∧ recurrentDropout < 1 then
      fun k => prevOutput k * maskFactor rdpc k
    else prevOutput
  fun j => activation (h j + ∑ k, prev k * recurrentKernel k j)

/-- The weights and activations of a `GRU` layer (build, lines 700-780). -/
structure GRUParams (d u : ℕ) where
  activation : ℚ → ℚ
  recurrent_activation : ℚ → ℚ
  use_bias : Bool
  kernel_z : Fin d → Fin u → ℚ
  kernel_r : Fin d → Fin u → ℚ
  kernel_h : Fin d → Fin u → ℚ
  recurrent_kernel_z : Fin u → Fin u → ℚ
  recurrent_kernel_r : Fin u → Fin u → ℚ
  recurrent_kernel_h : Fin u → Fin u → ℚ
  bias_z : Fin u → ℚ
  bias_r : Fin u → ℚ
  bias_h : Fin u → ℚ

/-- Embedding of `GRU.get_constants` (lines 798-829): two constants, each a
list of three dropout masks (one per gate), every one sampled once before the
scan (`dSample k`, `rSample k` stand for the backend samples) and equal to
all-ones outside the training phase, or the scalar 1 when the rate is outside
`(0, 1)` (or, for the input masks, when `implementation == 0`). -/
def GRU.getConstants {d u : ℕ} (implementation : ℕ) (dropout recurrentDropout : ℚ)
    (training : Bool) (dSample : Fin 3 → Fin d → ℚ) (rSample : Fin 3 → Fin u → ℚ) :
    (Fin 3 → Sum ℚ (Fin d → ℚ)) × (Fin 3 → Sum ℚ (Fin u → ℚ)) :=
  ( if implementation ≠ 0 ∧ 0 < dropout ∧ dropout < 1 then
      fun k => Sum.inr (if training then dSample k else fun _ => 1)
    else fun _ => Sum.inl 1,
    if 0 < recurrentDropout ∧ recurrentDropout < 1 then
      fun k => Sum.inr (if training then rSample k else fun _ => 1)
    else fun _ => Sum.inl 1 )

/-- The input projection `x_z` of `GRU.step` with `implementation == 1`
(lines 858-866): `K.dot(inputs * dp_mask[0], kernel_z)` plus the bias when
`use_bias`. -/
def GRU.xz {d u : ℕ} (P : GRUParams d u) (dp : Fin 3 → Sum ℚ (Fin d → ℚ))
    (x : Fin d → ℚ) : Fin u → ℚ :=
  fun j => (∑ i, x i * maskFactor (dp 0) i * P.kernel_z i j) +
    (if P.use_bias then P.bias_z j else 0)

/-- The input projection `x_r` of `GRU.step` with `implementation == 1`. -/
def GRU.xr {d u : ℕ} (P : GRUParams d u) (dp : Fin 3 → Sum ℚ (Fin d → ℚ))
    (x : Fin d → ℚ) : Fin u → ℚ :=
  fun j => (∑ i, x i * maskFactor (dp 1) i * P.kernel_r i j) +
    (if P.use_bias then P.bias_r j else 0)

/-- The input projection `x_h` of `GRU.step` with `implementation == 1`. -/
def GRU.xh {d u : ℕ} (P : GRUParams d u) (dp : Fin 3 → Sum ℚ (Fin d → ℚ))
    (x : Fin d → ℚ) : Fin u → ℚ :=
  fun j => (∑ i, x i * maskFactor (dp 2) i * P.kernel_h i j) +
    (if P.use_bias then P.bias_h j else 0)

/-- The update gate of `GRU.step` (line 875):
`z = recurrent_activation(x_z + K.dot(h_tm1 * rec_dp_mask[0], recurrent_kernel_z))`. -/
def GRU.gateZ {d u : ℕ} (P : GRUParams d u) (dp : Fin 3 → Sum ℚ (Fin d → ℚ))
    (rdp : Fin 3 → Sum ℚ (Fin u → ℚ)) (x : Fin d → ℚ) (h_tm1 : Fin u → ℚ) :
    Fin u → ℚ :=
  fun j => P.recurrent_activation (GRU.xz P dp x j +
    ∑ k, h_tm1 k * maskFactor (rdp 0) k * P.recurrent_kernel_z k j)

/-- The reset gate of `GRU.step` (line 877). -/
def GRU.gateR {d u : ℕ} (P : GRUParams d u) (dp : Fin 3 → Sum ℚ (Fin d → ℚ))
    (rdp : Fin 3 → Sum ℚ (Fin u → ℚ)) (x : Fin d → ℚ) (h_tm1 : Fin u → ℚ) :
    Fin u → ℚ :=
  fun j => P.recurrent_activation (GRU.xr P dp x j +
    ∑ k, h_tm1 k * maskFactor (rdp 1) k * P.recurrent_kernel_r k j)

/-- The candidate state of `GRU.step` (line 879):
`hh = activation(x_h + K.dot(r * h_tm1 * rec_dp_mask[2], recurrent_kernel_h))`. -/
def GRU.candidate {d u : ℕ} (P : GRUParams d u) (dp : Fin 3 → Sum ℚ (Fin d → ℚ))
    (rdp : Fin 3 → Sum ℚ (Fin u → ℚ)) (x : Fin d → ℚ) (h_tm1 : Fin u → ℚ) :
    Fin u → ℚ :=
  fun j => P.activation (GRU.xh P dp x j +
    ∑ k, GRU.gateR P dp rdp x h_tm1 k * h_tm1 k * maskFactor (rdp 2) k *
      P.recurrent_kernel_h k j)

/-- Embedding of `GRU.step` with `implementation == 1` (lines 831-880): the
new hidden state is `h = z * h_tm1 + (1 - z) * hh` and the returned state list
is `[h]`. -/
def GRU.step {d u : ℕ} (P : GRUParams d u) (x : Fin d → ℚ) (h_tm1 : Fin u → ℚ)
    (dp : Fin 3 → Sum ℚ (Fin d → ℚ)) (rdp : Fin 3 → Sum ℚ (Fin u → ℚ)) :
    (Fin u → ℚ) × List (Fin u → ℚ) :=
  let z := GRU.gateZ P dp rdp x h_tm1
  let hh := GRU.candidate P dp rdp x h_tm1
  let h : Fin u → ℚ := fun j => z j * h_tm1 j + (1 - z j) * hh j
  (h, [h])

/-- The weights and activations of an `LSTM` layer (build, lines 2480-2570;
with `implementation == 1` the biases are added unconditionally in `step`). -/
structure LSTMParams (d u : ℕ) where
  activation : ℚ → ℚ
  recurrent_activation : ℚ → ℚ
  kernel_i : Fin d → Fin u → ℚ
  kernel_f : Fin d → Fin u → ℚ
  kernel_c : Fin d → Fin u → ℚ
  kernel_o : Fin d → Fin u → ℚ
  recurrent_kernel_i : Fin u → Fin u → ℚ
  recurrent_kernel_f : Fin u → Fin u → ℚ
  recurrent_kernel_c : Fin u → Fin u → ℚ
  recurrent_kernel_o : Fin u → Fin u → ℚ
  bias_i : Fin u → ℚ
  bias_f : Fin u → ℚ
  bias_c : Fin u → ℚ
  bias_o : Fin u → ℚ

/-- The input gate of `LSTM.step` with `implementation == 1` (lines 2685-2696):
`i = recurrent_activation(x_i + K.dot(h_tm1 * rec_dp_mask[0], recurrent_kernel_i))`
with `x_i = K.dot(inputs * dp_mask[0], kernel_i) + bias_i`. -/
def LSTM.gateI {d u : ℕ} (P : LSTMParams d u) (dp : Fin 4 → Sum ℚ (Fin d → ℚ))
    (rdp : Fin 4 → Sum ℚ (Fin u → ℚ)) (x : Fin d → ℚ) (h_tm1 : Fin u → ℚ) :
    Fin u → ℚ :=
  fun j => P.recurrent_activation
    (((∑ i, x i * maskFactor (dp 0) i * P.kernel_i i j) + P.bias_i j) +
      ∑ k, h_tm1 k * maskFactor (rdp 0) k * P.recurrent_kernel_i k j)

/-- The forget gate of `LSTM.step` with `implementation == 1`. -/
def LSTM.gateF {d u : ℕ} (P : LSTMParams d u) (dp : Fin 4 → Sum ℚ (Fin d → ℚ))
    (rdp : Fin 4 → Sum ℚ (Fin u → ℚ)) (x : Fin d → ℚ) (h_tm1 : Fin u → ℚ) :
    Fin u → ℚ :=
  fun j => P.recurrent_activation
    (((∑ i, x i * maskFactor (dp 1) i * P.kernel_f i j) + P.bias_f j) +
      ∑ k, h_tm1 k * maskFactor (rdp 1) k * P.recurrent_kernel_f k j)

/-- The output gate of `LSTM.step` with `implementation == 1`. -/
def LSTM.gateO {d u : ℕ} (P : LSTMParams d u) (dp : Fin 4 → Sum ℚ (Fin d → ℚ))
    (rdp : Fin 4 → Sum ℚ (Fin u → ℚ)) (x : Fin d → ℚ) (h_tm1 : Fin u → ℚ) :
    Fin u → ℚ :=
  fun j => P.recurrent_activation
    (((∑ i, x i * maskFactor (dp 3) i * P.kernel_o i j) + P.bias_o j) +
      ∑ k, h_tm1 k * maskFactor (rdp 3) k * P.recurrent_kernel_o k j)

/-- The activated candidate of the cell update of `LSTM.step` with
`implementation == 1` (line 2697):
`activation(x_c + K.dot(h_tm1 * rec_dp_mask[2], recurrent_kernel_c))`. -/
def LSTM.cellCandidate {d u : ℕ} (P : LSTMParams d u) (dp : Fin 4 → Sum ℚ (Fin d → ℚ))
    (rdp : Fin 4 → Sum ℚ (Fin u → ℚ)) (x : Fin d → ℚ) (h_tm1 : Fin u → ℚ) :
    Fin u → ℚ :=
  fun j => P.activation
    (((∑ i, x i * maskFactor (dp 2) i * P.kernel_c i j) + P.bias_c j) +
      ∑ k, h_tm1 k * maskFactor (rdp 2) k * P.recurrent_kernel_c k j)

/-- The new cell state of `LSTM.step` with `implementation == 1` (line 2697):
`c = f * c_tm1 + i * activation(...)`. -/
def LSTM.cellState {d u : ℕ} (P : LSTMParams d u) (dp : Fin 4 → Sum ℚ (Fin d → ℚ))
    (rdp : Fin 4 → Sum ℚ (Fin u → ℚ)) (x : Fin d → ℚ) (h_tm1 c_tm1 : Fin u → ℚ) :
    Fin u → ℚ :=
  fun j => LSTM.gateF P dp rdp x h_tm1 j * c_tm1 j +
    LSTM.gateI P dp rdp x h_tm1 j * LSTM.cellCandidate P dp rdp x h_tm1 j

/-- Embedding of `LSTM.step` with `implementation == 1` (lines 2656-2702):
`h = o * activation(c)` and the returned state list is `[h, c]`. -/
def LSTM.step {d u : ℕ} (P : LSTMParams d u) (x : Fin d → ℚ) (h_tm1 c_tm1 : Fin u → ℚ)
    (dp : Fin 4 → Sum ℚ (Fin d → ℚ)) (rdp : Fin 4 → Sum ℚ (Fin u → ℚ)) :
    (Fin u → ℚ) × List (Fin u → ℚ) :=
  let c := LSTM.cellState P dp rdp x h_tm1 c_tm1
  let h : Fin u → ℚ := fun j =>
    LSTM.gateO P dp rdp x h_tm1 j * P.activation (c j)
  (h, [h, c])

/-- A numpy array of state values, as passed to `reset_states`. -/
abbrev NpArr := List (List ℚ)

/-- The numpy shape of a state array: `(rows, columns)`. -/
def npShape (a : NpArr) : ℕ × ℕ := (a.length, (a.headD []).length)

/-- The all-zero array `np.zeros((b, u))`. -/
def npZeros (b u : ℕ) : NpArr := List.replicate b (List.replicate u 0)

/-- The errors `Recurrent.reset_states` can raise. -/
inductive ResetErr where
  | attributeError
  | valueErrorBatchSize
  | valueErrorCount (expected got : ℕ)
  | valueErrorShape (idx : ℕ)
  deriving DecidableEq

/-- The part of a recurrent layer that `reset_states` reads and writes:
the `stateful` flag, the batch size recorded in `input_spec[0].shape[0]`
(`none` or `0` both count as unknown, Python's falsiness), the unit count and
the stored states (a stored state is `none` before first initialization). -/
structure ResetLayer where
  stateful : Bool
  batchSize : Option ℕ
  units : ℕ
  states : List (Option NpArr)
  deriving DecidableEq

/-- The update loop of `reset_states` over `zip(states, self.states)`: each
value is shape-checked against `(batch_size, units)` and then assigned with
`K.set_value`; on a shape mismatch the loop stops with a `ValueError`, keeping
the assignments already made. -/
def setStatesLoop (b u : ℕ) : List (Option NpArr) → List NpArr → ℕ →
    List (Option NpArr) × Option ResetErr
  | ss, [], _ => (ss, none)
  | [], _ :: _, _ => ([], none)
  | s :: ss, v :: vs, idx =>
    if npShape v ≠ (b, u) then (s :: ss, some (ResetErr.valueErrorShape idx))
    else
      let rest := setStatesLoop b u ss vs (idx + 1)
      (some v :: rest.1, rest.2)

/-- Embedding of `Recurrent.reset_states` (lines 368-406).  Returns the stored
states after the call together with the raised error, if any: a non-stateful
layer raises `AttributeError`; an unknown batch size raises `ValueError`;
uninitialized states (`self.states[0] is None`) are replaced by zero arrays
(ignoring any passed values); with no argument every state is set to
`np.zeros((batch_size, units))`; otherwise the passed values are counted,
then shape-checked and assigned one at a time. -/
def Recurrent.resetStates (L : ResetLayer) (statesArg : Option (List NpArr)) :
    List (Option NpArr) × Option ResetErr :=
  if L.stateful = false then (L.states, some ResetErr.attributeError)
  else
    match L.batchSize with
    | none => (L.states, some ResetErr.valueErrorBatchSize)
    | some b =>
      if b = 0 then (L.states, some ResetErr.valueErrorBatchSize)
      else if L.states.headD none = none then
        (L.states.map fun _ => some (npZeros b L.units), none)
      else
        match statesArg with
        | none => (L.states.map fun _ => some (npZeros b L.units), none)
        | some vals =>
          if vals.length ≠ L.states.length then
            (L.states, some (ResetErr.valueErrorCount L.states.length vals.length))
          else setStatesLoop b L.units L.states vals 0

/-- The shift used by the numerically stable softmax: the maximum entry of
the score vector. -/
noncomputable def softmaxShift {m : ℕ} (e : Fin (m + 1) → ℝ) : ℝ :=
  Finset.univ.sup' Finset.univ_nonempty e

/-- Modelled from the spec: the backend `K.softmax` ("numerically stable
softmax-based alignment"; the backend is not part of this repository).  The
maximum score is subtracted from every entry before exponentiation, so every
exponential is bounded by 1 and the normalizing sum is at least 1. -/
noncomputable def kSoftmax {m : ℕ} (e : Fin (m + 1) → ℝ) : Fin (m + 1) → ℝ :=
  fun j => Real.exp (e j - softmaxShift e) / ∑ k, Real.exp (e k - softmaxShift e)

/-- The weights of an `AttLSTMCond` layer used by its attention model and its
LSTM block (build, lines 4299-4380): `m + 1` is the number of context
timesteps, `u` the units, `a` the attention units, `cd` the context feature
dimension.  The concatenated kernels of shape `(·, 4 * units)` are embedded in
blocks, indexed by `Fin 4` in the slice order `i, f, c, o` of `step`. -/
structure AttParams (m u a cd : ℕ) where
  activation : ℝ → ℝ
  recurrent_activation : ℝ → ℝ
  use_bias : Bool
  attention_recurrent_kernel : Fin u → Fin a → ℝ
  attention_context_kernel : Fin cd → Fin a → ℝ
  attention_context_wa : Fin a → ℝ
  bias_ca : ℝ
  bias_ba : Fin a → ℝ
  kernel : Fin cd → Fin 4 → Fin u → ℝ
  recurrent_kernel : Fin u → Fin 4 → Fin u → ℝ
  bias : Fin 4 → Fin u → ℝ

/-- A dropout constant over ℝ (scalar 1 or mask tensor), as in `maskFactor`. -/
def maskFactorR {n : ℕ} (c : Sum ℝ (Fin n → ℝ)) : Fin n → ℝ :=
  match c with
  | Sum.inl s => fun _ => s
  | Sum.inr msk => msk

/-- The scores `e` of the attention model of `AttLSTMCond.step` (lines
4524-4535): the projected context and the context are first multiplied by the
context mask when one is present (`mask_context.ndim > 1`); then
`e = K.dot(K.tanh(pctx_ + p_state_[:, None, :]), attention_context_wa) + bias_ca`
with `p_state_ = K.dot(h_tm1 * att_dp_mask[0], attention_recurrent_kernel)`,
and `e` is multiplied by the context mask when one is present. -/
noncomputable def AttLSTMCond.scores {m u a cd : ℕ} (P : AttParams m u a cd)
    (maskFlag : Bool) (maskContext : Fin (m + 1) → ℝ)
    (pctx : Fin (m + 1) → Fin a → ℝ) (h_tm1 : Fin u → ℝ)
    (attDp : Fin 1 → Sum ℝ (Fin u → ℝ)) : Fin (m + 1) → ℝ :=
  let pctxM : Fin (m + 1) → Fin a → ℝ :=
    if maskFlag then fun j i => maskContext j * pctx j i else pctx
  let pState : Fin a → ℝ := fun i =>
    ∑ k, h_tm1 k * maskFactorR (attDp 0) k * P.attention_recurrent_kernel k i
  let pctxT : Fin (m + 1) → Fin a → ℝ := fun j i => Real.tanh (pctxM j i + pState i)
  let e0 : Fin (m + 1) → ℝ := fun j =>
    (∑ i, pctxT j i * P.attention_context_wa i) + P.bias_ca
  if maskFlag then fun j => maskContext j * e0 j else e0

/-- The alignment weights of `AttLSTMCond.step` (line 4536):
`alphas = K.softmax(e)`. -/
noncomputable def AttLSTMCond.alphas {m u a cd : ℕ} (P : AttParams m u a cd)
    (maskFlag : Bool) (maskContext : Fin (m + 1) → ℝ)
    (pctx : Fin (m + 1) → Fin a → ℝ) (h_tm1 : Fin u → ℝ)
    (attDp : Fin 1 → Sum ℝ (Fin u → ℝ)) : Fin (m + 1) → ℝ :=
  kSoftmax (AttLSTMCond.scores P maskFlag maskContext pctx h_tm1 attDp)

/-- The context sequence as seen by the weighted sum of `AttLSTMCond.step`:
multiplied by the context mask when one is present (line 4526). -/
def AttLSTMCond.maskedContext {m cd : ℕ} (maskFlag : Bool)
    (maskContext : Fin (m + 1) → ℝ) (context : Fin (m + 1) → Fin cd → ℝ) :
    Fin (m + 1) → Fin cd → ℝ :=
  if maskFlag then fun j i => maskContext j * context j i else context

/-- The context vector of `AttLSTMCond.step` (line 4538):
`ctx_ = (context * alphas[:, :, None]).sum(axis=1)`, a single weighted-sum
vector per step invocation. -/
noncomputable def AttLSTMCond.ctx {m u a cd : ℕ} (P : AttParams m u a cd)
    (maskFlag : Bool) (maskContext : Fin (m + 1) → ℝ)
    (context : Fin (m + 1) → Fin cd → ℝ) (pctx : Fin (m + 1) → Fin a → ℝ)
    (h_tm1 : Fin u → ℝ) (attDp : Fin 1 → Sum ℝ (Fin u → ℝ)) : Fin cd → ℝ :=
  fun i => ∑ j, AttLSTMCond.maskedContext maskFlag maskContext context j i *
    AttLSTMCond.alphas P maskFlag maskContext pctx h_tm1 attDp j

/-- The value returned by one invocation of `AttLSTMCond.step`:
`(h, [h, c, ctx_, alphas])`. -/
structure AttStepOut (m u cd : ℕ) where
  h : Fin u → ℝ
  c : Fin u → ℝ
  ctx : Fin cd → ℝ
  alphas : Fin (m + 1) → ℝ

/-- Embedding of `AttLSTMCond.step` (lines 4512-4556): the attention model
produces `ctx_` and `alphas`; then the LSTM block computes
`z = x + K.dot(h_tm1 * rec_dp_mask[0], recurrent_kernel) + K.dot(ctx_ * dp_mask[0], kernel)`
(plus the bias when `use_bias`), slices it into the four gates and updates
`c = f * c_tm1 + i * activation(z2)`, `h = o * activation(c)`. -/
noncomputable def AttLSTMCond.step {m u a cd : ℕ} (P : AttParams m u a cd)
    (x : Fin 4 → Fin u → ℝ) (h_tm1 c_tm1 : Fin u → ℝ)
    (dp : Fin 4 → Sum ℝ (Fin cd → ℝ)) (rdp : Fin 4 → Sum ℝ (Fin u → ℝ))
    (attDp : Fin 1 → Sum ℝ (Fin u → ℝ)) (pctx : Fin (m + 1) → Fin a → ℝ)
    (context : Fin (m + 1) → Fin cd → ℝ) (maskFlag : Bool)
    (maskContext : Fin (m + 1) → ℝ) : AttStepOut m u cd :=
  let ctxv := AttLSTMCond.ctx P maskFlag maskContext context pctx h_tm1 attDp
  let z : Fin 4 → Fin u → ℝ := fun b j =>
    (x b j + ∑ k, h_tm1 k * maskFactorR (rdp 0) k * P.recurrent_kernel k b j +
      ∑ i, ctxv i * maskFactorR (dp 0) i * P.kernel i b j) +
    (if P.use_bias then P.bias b j else 0)
  let i := fun j => P.recurrent_activation (z 0 j)
  let f := fun j => P.recurrent_activation (z 1 j)
  let o := fun j => P.recurrent_activation (z 3 j)
  let c := fun j => f j * c_tm1 j + i j * P.activation (z 2 j)
  { h := fun j => o j * P.activation (c j)
    c := c
    ctx := ctxv
    alphas := AttLSTMCond.alphas P maskFlag maskContext pctx h_tm1 attDp }

/-- The projected context computed in `AttLSTMCond.get_constants` (lines
4610-4621): `pctx = K.dot(context * B_Ua, attention_context_kernel)` when
attention dropout is active (`bUa` stands for the backend sample), otherwise
`pctx = K.dot(context, attention_context_kernel)`, plus `bias_ba` when
`use_bias`.  The projection acts per context timestep. -/
noncomputable def AttLSTMCond.projectContext {m u a cd : ℕ} (P : AttParams m u a cd)
    (attDrop : Bool) (bUa : Fin (m + 1) → Fin cd → ℝ)
    (context : Fin (m + 1) → Fin cd → ℝ) : Fin (m + 1) → Fin a → ℝ :=
  fun j i =>
    (if attDrop then ∑ dd, context j dd * bUa j dd * P.attention_context_kernel dd i
     else ∑ dd, context j dd * P.attention_context_kernel dd i) +
    (if P.use_bias then P.bias_ba i else 0)

/-- The context vector produced by `AttLSTMCond.step` when the projected
context constant is the one computed from the raw context by
`get_constants`. -/
noncomputable def AttLSTMCond.ctxFromRaw {m u a cd : ℕ} (P : AttParams m u a cd)
    (attDrop : Bool) (bUa : Fin (m + 1) → Fin cd → ℝ)
    (maskContext : Fin (m + 1) → ℝ) (context : Fin (m + 1) → Fin cd → ℝ)
    (h_tm1 : Fin u → ℝ) (attDp : Fin 1 → Sum ℝ (Fin u → ℝ)) : Fin cd → ℝ :=
  AttLSTMCond.ctx P true maskContext context
    (AttLSTMCond.projectContext P attDrop bUa context) h_tm1 attDp

/-- A tiny concrete recurrent layer over ℚ (a one-state accumulator), used to
instantiate the generic theorems at a concrete input. -/
def accLayer : RecurrentLayer ℚ ℚ ℚ where
  step := fun x s => (x + s.headD 0, [x + s.headD 0])
  preprocess := id
  getConstants := fun _ => []
  getInitialState := fun _ => [0]
  numStates := 1
  states := [0]
  returnSequences := true
  returnState := false
  goBackwards := false
  stateful := false
  unroll := false

/-- Concrete GRU weights whose recurrent activation is constantly 0 (so the
update gate is 0), used to instantiate the gate theorems. -/
def gruZeroGateParams : GRUParams 1 1 where
  activation := id
  recurrent_activation := fun _ => 0
  use_bias := false
  kernel_z := fun _ _ => 0
  kernel_r := fun _ _ => 0
  kernel_h := fun _ _ => 0
  recurrent_kernel_z := fun _ _ => 0
  recurrent_kernel_r := fun _ _ => 0
  recurrent_kernel_h := fun _ _ => 0
  bias_z := fun _ => 0
  bias_r := fun _ => 0
  bias_h := fun _ => 0

/-- Concrete GRU weights whose recurrent activation is constantly 1 (so the
update gate is 1), used to instantiate the gate theorems. -/
def gruOneGateParams : GRUParams 1 1 where
  activation := id
  recurrent_activation := fun _ => 1
  use_bias := false
  kernel_z := fun _ _ => 0
  kernel_r := fun _ _ => 0
  kernel_h := fun _ _ => 0
  recurrent_kernel_z := fun _ _ => 0
  recurrent_kernel_r := fun _ _ => 0
  recurrent_kernel_h := fun _ _ => 0
  bias_z := fun _ => 0
  bias_r := fun _ => 0
  bias_h := fun _ => 0

/-- Concrete scalar-1 dropout constants for a width-1 GRU input. -/
def gw3d : Fin 3 → Sum ℚ (Fin 1 → ℚ) := fun _ => Sum.inl 1

/-- Concrete scalar-1 recurrent dropout constants for a width-1 GRU. -/
def gw3u : Fin 3 → Sum ℚ (Fin 1 → ℚ) := fun _ => Sum.inl 1

/-- Concrete width-1 input used by the gate witnesses. -/
def xw : Fin 1 → ℚ := fun _ => 0

/-- Concrete width-1 previous hidden state used by the gate witnesses. -/
def hw : Fin 1 → ℚ := fun _ => 5

/-- Concrete attention weights (one context position, one unit), used to
instantiate the attention theorems at a concrete input. -/
def attWitnessParams : AttParams 0 1 1 1 where
  activation := id
  recurrent_activation := id
  use_bias := false
  attention_recurrent_kernel := fun _ _ => 1
  attention_context_kernel := fun _ _ => 1
  attention_context_wa := fun _ => 1
  bias_ca := 0
  bias_ba := fun _ => 0
  kernel := fun _ _ _ => 0
  recurrent_kernel := fun _ _ _ => 0
  bias := fun _ _ => 0

theorem statesAt_cons_succ {ι σ ο : Type} (step : ι → List σ → ο × List σ)
    (constants : List σ) (xi : ι) (rest : List ι) (init : List σ) (t : ℕ) :
    statesAt step constants (xi :: rest) init (t + 1) =
      statesAt step constants rest (step xi (init ++ constants)).2 t := by
  induction t with
  | zero => simp [statesAt]
  | succ t ih =>
    rw [statesAt]
    rw [show statesAt step constants (xi :: rest) init (t + 1) =
        statesAt step constants rest (step xi (init ++ constants)).2 t from ih]
    rw [statesAt]
    rcases h : rest[t]? with _ | y <;> simp [h]

theorem kRnnGo_outputs_length {ι σ ο : Type} (step : ι → List σ → ο × List σ)
    (constants : List σ) (xs : List ι) (init : List σ) :
    (kRnnGo step constants xs init).1.length = xs.length := by
  induction xs generalizing init with
  | nil => simp [kRnnGo]
  | cons xi rest ih => simp [kRnnGo, ih]

theorem kRnnGo_output_get {ι σ ο : Type} (step : ι → List σ → ο × List σ)
    (constants : List σ) (xs : List ι) (init : List σ) (t : ℕ) :
    (kRnnGo step constants xs init).1[t]? = outAt step constants xs init t := by
  induction xs generalizing init t with
  | nil => simp [kRnnGo, outAt]
  | cons xi rest ih =>
    cases t with
    | zero => simp [kRnnGo, outAt, statesAt]
    | succ t =>
      simp only [kRnnGo, List.getElem?_cons_succ, ih, outAt, statesAt_cons_succ]

theorem kRnnGo_final_states {ι σ ο : Type} (step : ι → List σ → ο × List σ)
    (constants : List σ) (xs : List ι) (init : List σ) :
    (kRnnGo step constants xs init).2 = statesAt step constants xs init xs.length := by
  induction xs generalizing init with
  | nil => simp [kRnnGo, statesAt]
  | cons xi rest ih =>
    simp only [kRnnGo, List.length_cons, statesAt_cons_succ, ih]

theorem le_softmaxShift {m : ℕ} (e : Fin (m + 1) → ℝ) (j : Fin (m + 1)) :
    e j ≤ softmaxShift e :=
  Finset.le_sup' e (Finset.mem_univ j)

theorem softmaxDenom_pos {m : ℕ} (e : Fin (m + 1) → ℝ) :
    0 < ∑ k, Real.exp (e k - softmaxShift e) :=
  Finset.sum_pos (fun k _ => Real.exp_pos _) Finset.univ_nonempty

theorem softmaxNum_le_one {m : ℕ} (e : Fin (m + 1) → ℝ) (j : Fin (m + 1)) :
    Real.exp (e j - softmaxShift e) ≤ 1 := by
  rw [Real.exp_le_one_iff]
  exact sub_nonpos.mpr (le_softmaxShift e j)

theorem one_le_softmaxDenom {m : ℕ} (e : Fin (m + 1) → ℝ) :
    1 ≤ ∑ k, Real.exp (e k - softmaxShift e) := by
  obtain ⟨j0, -, hj0⟩ := Finset.exists_mem_eq_sup' (Finset.univ_nonempty) e
  have h1 : Real.exp (e j0 - softmaxShift e) = 1 := by
    rw [softmaxShift, ← hj0, sub_self, Real.exp_zero]
  calc (1 : ℝ) = Real.exp (e j0 - softmaxShift e) := h1.symm
    _ ≤ ∑ k, Real.exp (e k - softmaxShift e) :=
        Finset.single_le_sum (f := fun k => Real.exp (e k - softmaxShift e))
          (fun k _ => (Real.exp_pos _).le) (Finset.mem_univ j0)

theorem kSoftmax_nonneg {m : ℕ} (e : Fin (m + 1) → ℝ) (j : Fin (m + 1)) :
    0 ≤ kSoftmax e j :=
  div_nonneg (Real.exp_pos _).le (softmaxDenom_pos e).le

theorem kSoftmax_le_one {m : ℕ} (e : Fin (m + 1) → ℝ) (j : Fin (m + 1)) :
    kSoftmax e j ≤ 1 := by
  rw [kSoftmax, div_le_one (softmaxDenom_pos e)]
  exact Finset.single_le_sum (f := fun k => Real.exp (e k - softmaxShift e))
    (fun k _ => (Real.exp_pos _).le) (Finset.mem_univ j)

theorem kSoftmax_sum_one {m : ℕ} (e : Fin (m + 1) → ℝ) :
    (∑ j, kSoftmax e j) = 1 := by
  simp only [kSoftmax]
  rw [← Finset.sum_div]
  exact div_self (ne_of_gt (softmaxDenom_pos e))

/-- C8: the softmax-based alignment of the attention step is numerically
stable: the maximum score is subtracted before exponentiation, so for every
score vector each exponential is bounded by 1 and the normalizing sum is at
least 1, and the resulting alignment weights lie in `[0, 1]` and sum to 1.
(Weights are total real numbers, so finiteness is inherent to the
embedding; the max-subtraction bounds are the real-arithmetic content of
floating-point overflow safety.) -/
theorem softmax_alignment_stable_bounds {m : ℕ} (e : Fin (m + 1) → ℝ) :
    (∀ j, 0 ≤ kSoftmax e j) ∧ (∀ j, kSoftmax e j ≤ 1) ∧
    (∑ j, kSoftmax e j) = 1 ∧
    (∀ j, Real.exp (e j - softmaxShift e) ≤ 1) ∧
    1 ≤ ∑ k, Real.exp (e k - softmaxShift e) :=
  ⟨kSoftmax_nonneg e, kSoftmax_le_one e, kSoftmax_sum_one e,
    softmaxNum_le_one e, one_le_softmaxDenom e⟩

/-- C2: the context vector returned by `AttLSTMCond.step` is the weighted sum
over the positions of the context sequence (masked when a context mask is
present), with weights given by a softmax of the learned scores of the
previous hidden state and the projected context; the weights are nonnegative,
bounded by 1 and sum to 1, and the step produces exactly one context vector
(the single `ctx` field of its result). -/
theorem attlstmcond_step_softmax_weighted_context {m u a cd : ℕ}
    (P : AttParams m u a cd) (x : Fin 4 → Fin u → ℝ) (h_tm1 c_tm1 : Fin u → ℝ)
    (dp : Fin 4 → Sum ℝ (Fin cd → ℝ)) (rdp : Fin 4 → Sum ℝ (Fin u → ℝ))
    (attDp : Fin 1 → Sum ℝ (Fin u → ℝ)) (pctx : Fin (m + 1) → Fin a → ℝ)
    (context : Fin (m + 1) → Fin cd → ℝ) (maskFlag : Bool)
    (maskContext : Fin (m + 1) → ℝ) :
    (∀ i, (AttLSTMCond.step P x h_tm1 c_tm1 dp rdp attDp pctx context maskFlag
        maskContext).ctx i =
      ∑ j, AttLSTMCond.maskedContext maskFlag maskContext context j i *
        (AttLSTMCond.step P x h_tm1 c_tm1 dp rdp attDp pctx context maskFlag
          maskContext).alphas j) ∧
    (∀ j, 0 ≤ (AttLSTMCond.step P x h_tm1 c_tm1 dp rdp attDp pctx context
        maskFlag maskContext).alphas j ∧
      (AttLSTMCond.step P x h_tm1 c_tm1 dp rdp attDp pctx context maskFlag
        maskContext).alphas j ≤ 1) ∧
    (∑ j, (AttLSTMCond.step P x h_tm1 c_tm1 dp rdp attDp pctx context maskFlag
      maskContext).alphas j) = 1 := by
  refine ⟨fun i => rfl, fun j => ⟨?_, ?_⟩, ?_⟩
  · exact kSoftmax_nonneg _ j
  · exact kSoftmax_le_one _ j
  · exact kSoftmax_sum_one _

theorem attScores_masked_congr {m u a cd : ℕ} (P : AttParams m u a cd)
    (maskContext : Fin (m + 1) → ℝ) (p p' : Fin (m + 1) → Fin a → ℝ)
    (h_tm1 : Fin u → ℝ) (attDp : Fin 1 → Sum ℝ (Fin u → ℝ))
    (hagree : ∀ j, maskContext j ≠ 0 → p j = p' j) :
    AttLSTMCond.scores P true maskContext p h_tm1 attDp =
      AttLSTMCond.scores P true maskContext p' h_tm1 attDp := by
  funext j
  simp only [AttLSTMCond.scores]
  by_cases hmj : maskContext j = 0
  · simp [hmj]
  · have hp := hagree j hmj
    simp [hp]

theorem attAlphas_masked_congr {m u a cd : ℕ} (P : AttParams m u a cd)
    (maskContext : Fin (m + 1) → ℝ) (p p' : Fin (m + 1) → Fin a → ℝ)
    (h_tm1 : Fin u → ℝ) (attDp : Fin 1 → Sum ℝ (Fin u → ℝ))
    (hagree : ∀ j, maskContext j ≠ 0 → p j = p' j) :
    AttLSTMCond.alphas P true maskContext p h_tm1 attDp =
      AttLSTMCond.alphas P true maskContext p' h_tm1 attDp := by
  unfold AttLSTMCond.alphas
  rw [attScores_masked_congr P maskContext p p' h_tm1 attDp hagree]

theorem projectContext_congr_at {m u a cd : ℕ} (P : AttParams m u a cd)
    (attDrop : Bool) (bUa : Fin (m + 1) → Fin cd → ℝ)
    (context context' : Fin (m + 1) → Fin cd → ℝ) (j : Fin (m + 1))
    (hj : context j = context' j) :
    AttLSTMCond.projectContext P attDrop bUa context j =
      AttLSTMCond.projectContext P attDrop bUa context' j := by
  funext i
  simp only [AttLSTMCond.projectContext, hj]

/-- C3: with a context mask present, masked (mask = 0) positions of the
context sequence contribute zero to the weighted-sum context vector, and
changing the raw context values at masked positions (which also changes the
projected-context constant computed by `get_constants` at those positions)
does not change the context vector produced by the step. -/
theorem attlstmcond_step_masked_positions_zeroed {m u a cd : ℕ}
    (P : AttParams m u a cd) (attDrop : Bool) (bUa : Fin (m + 1) → Fin cd → ℝ)
    (maskContext : Fin (m + 1) → ℝ) (context context' : Fin (m + 1) → Fin cd → ℝ)
    (h_tm1 : Fin u → ℝ) (attDp : Fin 1 → Sum ℝ (Fin u → ℝ)) (j0 : Fin (m + 1))
    (hzero : maskContext j0 = 0)
    (hagree : ∀ j, maskContext j ≠ 0 → context j = context' j) :
    (∀ i, AttLSTMCond.maskedContext true maskContext context j0 i *
        AttLSTMCond.alphas P true maskContext
          (AttLSTMCond.projectContext P attDrop bUa context) h_tm1 attDp j0 = 0) ∧
    AttLSTMCond.ctxFromRaw P attDrop bUa maskContext context h_tm1 attDp =
      AttLSTMCond.ctxFromRaw P attDrop bUa maskContext context' h_tm1 attDp := by
  have hproj : ∀ j, maskContext j ≠ 0 →
      AttLSTMCond.projectContext P attDrop bUa context j =
        AttLSTMCond.projectContext P attDrop bUa context' j :=
    fun j hj => projectContext_congr_at P attDrop bUa context context' j (hagree j hj)
  have halphas : AttLSTMCond.alphas P true maskContext
      (AttLSTMCond.projectContext P attDrop bUa context) h_tm1 attDp =
        AttLSTMCond.alphas P true maskContext
          (AttLSTMCond.projectContext P attDrop bUa context') h_tm1 attDp :=
    attAlphas_masked_congr P maskContext _ _ h_tm1 attDp hproj
  constructor
  · intro i
    simp [AttLSTMCond.maskedContext, hzero]
  · funext i
    simp only [AttLSTMCond.ctxFromRaw, AttLSTMCond.ctx, halphas]
    refine Finset.sum_congr rfl fun j _ => ?_
    by_cases hmj : maskContext j = 0
    · simp [AttLSTMCond.maskedContext, hmj]
    · simp [AttLSTMCond.maskedContext, hagree j hmj]

/-- Witness for C3 at a concrete input: a single, fully masked context
position; two context sequences differing only there produce the same context
vector. -/
theorem attlstmcond_step_masked_positions_zeroed_witness :
    ((fun _ : Fin 1 => (0 : ℝ)) ⟨0, Nat.one_pos⟩ = 0) ∧
    (∀ j : Fin 1, (fun _ : Fin 1 => (0 : ℝ)) j ≠ 0 →
      (fun _ : Fin 1 => fun _ : Fin 1 => (2 : ℝ)) j =
        (fun _ : Fin 1 => fun _ : Fin 1 => (5 : ℝ)) j) ∧
    AttLSTMCond.ctxFromRaw attWitnessParams false (fun _ _ => 1) (fun _ => 0)
        (fun _ _ => 2) (fun _ => 0) (fun _ => Sum.inl 1) =
      AttLSTMCond.ctxFromRaw attWitnessParams false (fun _ _ => 1) (fun _ => 0)
        (fun _ _ => 5) (fun _ => 0) (fun _ => Sum.inl 1) := by
  refine ⟨rfl, fun j hj => absurd rfl hj, ?_⟩
  exact (attlstmcond_step_masked_positions_zeroed attWitnessParams false
    (fun _ _ => 1) (fun _ => 0) (fun _ _ => 2) (fun _ _ => 5) (fun _ => 0)
    (fun _ => Sum.inl 1) ⟨0, Nat.one_pos⟩ rfl (fun j hj => absurd rfl hj)).2

/-- C1: `Recurrent.call` folds the input sequence into hidden states under the
layer's step function: starting from the selected initial state, the output
(resp. state) at each timestep `t` is the first (resp. second) component of
the step function applied to the input at `t` and the state produced at
`t - 1`; with `return_sequences` the full per-timestep output sequence is
returned, otherwise only the last output. -/
theorem recurrent_call_folds_sequence {ι σ ο : Type} (L : RecurrentLayer ι σ ο)
    (timeDimKnown : Bool) (inputs : List ι) (arg : Option (List σ))
    (init constants : List σ)
    (hinit : init = selectedInitial L inputs arg)
    (hconst : constants = L.getConstants inputs)
    (hpre : L.preprocess inputs = inputs)
    (hgb : L.goBackwards = false)
    (hunroll : L.unroll = false)
    (hlen : init.length = L.numStates) :
    Recurrent.call L timeDimKnown inputs arg = Except.ok
      { output := if L.returnSequences then
            Sum.inl (kRnnGo L.step constants inputs init).1
          else Sum.inr (kRnnGo L.step constants inputs init).1.getLast?
        returnedStates := if L.returnState then
            some (kRnnGo L.step constants inputs init).2
          else none
        newStoredStates := if L.stateful then
            (kRnnGo L.step constants inputs init).2
          else L.states } ∧
    (∀ t, (kRnnGo L.step constants inputs init).1[t]? =
      outAt L.step constants inputs init t) ∧
    (∀ t, ∀ ht : t < inputs.length,
      outAt L.step constants inputs init t =
        some (L.step inputs[t]
          (statesAt L.step constants inputs init t ++ constants)).1 ∧
      statesAt L.step constants inputs init (t + 1) =
        (L.step inputs[t]
          (statesAt L.step constants inputs init t ++ constants)).2) ∧
    (kRnnGo L.step constants inputs init).1.getLast? =
      outAt L.step constants inputs init (inputs.length - 1) ∧
    (kRnnGo L.step constants inputs init).2 =
      statesAt L.step constants inputs init inputs.length := by
  subst hinit hconst
  refine ⟨?_, kRnnGo_output_get L.step _ inputs _, ?_, ?_, kRnnGo_final_states L.step _ inputs _⟩
  · simp only [Recurrent.call, hlen, hpre, hgb, hunroll, kRnn]
    simp
  · intro t ht
    constructor
    · simp [outAt, List.getElem?_eq_getElem ht]
    · simp [statesAt, List.getElem?_eq_getElem ht]
  · rw [List.getLast?_eq_getElem?, kRnnGo_outputs_length]
    exact kRnnGo_output_get L.step _ inputs _ (inputs.length - 1)

/-- Witness for C1: the accumulator layer on the input sequence `[1, 2]`. -/
theorem recurrent_call_folds_sequence_witness :
    ([(0 : ℚ)] = selectedInitial accLayer [1, 2] none) ∧
    (([] : List ℚ) = accLayer.getConstants [1, 2]) ∧
    accLayer.preprocess [1, 2] = [1, 2] ∧
    accLayer.goBackwards = false ∧
    accLayer.unroll = false ∧
    ([(0 : ℚ)] : List ℚ).length = accLayer.numStates ∧
    Recurrent.call accLayer true [1, 2] none = Except.ok
      { output := if accLayer.returnSequences then
            Sum.inl (kRnnGo accLayer.step [] [1, 2] [0]).1
          else Sum.inr (kRnnGo accLayer.step [] [1, 2] [0]).1.getLast?
        returnedStates := if accLayer.returnState then
            some (kRnnGo accLayer.step [] [1, 2] [0]).2
          else none
        newStoredStates := if accLayer.stateful then
            (kRnnGo accLayer.step [] [1, 2] [0]).2
          else accLayer.states } := by
  refine ⟨rfl, rfl, rfl, rfl, rfl, rfl, ?_⟩
  exact (recurrent_call_folds_sequence accLayer true [1, 2] none [0] []
    rfl rfl rfl rfl rfl rfl).1

/-- C9: `Recurrent.call` raises `ValueError` exactly when the number of
selected initial states differs from the layer's number of states; the check
happens before the scan (the error short-circuits the computation), and when
the numbers match this error is never produced. -/
theorem call_state_count_valueerror {ι σ ο : Type} (L : RecurrentLayer ι σ ο)
    (timeDimKnown : Bool) (inputs : List ι) (arg : Option (List σ)) :
    ((selectedInitial L inputs arg).length ≠ L.numStates →
      Recurrent.call L timeDimKnown inputs arg =
        Except.error (CallErr.stateCountMismatch L.numStates
          (selectedInitial L inputs arg).length)) ∧
    ((selectedInitial L inputs arg).length = L.numStates →
      ∀ n k, Recurrent.call L timeDimKnown inputs arg ≠
        Except.error (CallErr.stateCountMismatch n k)) := by
  constructor
  · intro hne
    simp [Recurrent.call, hne]
  · intro heq n k
    simp only [Recurrent.call, heq]
    by_cases hu : L.unroll ∧ timeDimKnown = false
    · simp [hu]
    · simp [hu]

/-- Witness for C9: the accumulator layer rejects two initial states (it has
one) and accepts one. -/
theorem call_state_count_valueerror_witness :
    ((selectedInitial accLayer [1, 2] (some [0, 0])).length ≠ accLayer.numStates ∧
      Recurrent.call accLayer true [1, 2] (some [0, 0]) =
        Except.error (CallErr.stateCountMismatch accLayer.numStates
          (selectedInitial accLayer [1, 2] (some [0, 0])).length)) ∧
    ((selectedInitial accLayer [1, 2] (some [0])).length = accLayer.numStates ∧
      ∀ n k, Recurrent.call accLayer true [1, 2] (some [0]) ≠
        Except.error (CallErr.stateCountMismatch n k)) := by
  constructor
  · exact ⟨by decide, (call_state_count_valueerror accLayer true [1, 2]
      (some [0, 0])).1 (by decide)⟩
  · exact ⟨by decide, (call_state_count_valueerror accLayer true [1, 2]
      (some [0])).2 (by decide)⟩

/-- C7: with `stateful=True` and no explicit initial state, the initial state
of a call is the layer's stored states and after a successful call the stored
states are the final states of the scan; with `stateful=False` and no explicit
initial state, the call starts from `get_initial_state`, which builds
`len(self.states)` copies of the all-zero tensor of shape
`(samples, units)`. -/
theorem stateful_initial_and_updated_states {ι σ ο : Type} :
    (∀ (L : RecurrentLayer ι σ ο) (inputs : List ι), L.stateful = true →
      selectedInitial L inputs none = L.states) ∧
    (∀ (L : RecurrentLayer ι σ ο) (inputs : List ι), L.stateful = false →
      selectedInitial L inputs none = L.getInitialState inputs) ∧
    (∀ (L : RecurrentLayer ι σ ο) (timeDimKnown : Bool) (inputs : List ι)
        (arg : Option (List σ)) (r : CallOut σ ο), L.stateful = true →
      Recurrent.call L timeDimKnown inputs arg = Except.ok r →
      r.newStoredStates = (kRnn L.step (L.preprocess inputs)
        (selectedInitial L inputs arg) (L.getConstants inputs)
        L.goBackwards).2.2) ∧
    (∀ (numStates timesteps inputDim units : ℕ) (inputs3 : ℕ → ℕ → ℕ → ℚ),
      (Recurrent.getInitialStateZeros numStates timesteps inputDim units
        inputs3).length = numStates ∧
      ∀ st, st ∈ Recurrent.getInitialStateZeros numStates timesteps inputDim
        units inputs3 → ∀ s u, st s u = 0) := by
  refine ⟨?_, ?_, ?_, ?_⟩
  · intro L inputs hst
    simp [selectedInitial, hst]
  · intro L inputs hst
    simp [selectedInitial, hst]
  · intro L timeDimKnown inputs arg r hst hok
    simp only [Recurrent.call] at hok
    by_cases hlen : (selectedInitial L inputs arg).length ≠ L.numStates
    · simp [hlen] at hok
    · by_cases hu : L.unroll ∧ timeDimKnown = false
      · simp [hlen, hu] at hok
      · simp only [hlen, hu, if_neg, if_false, reduceIte] at hok
        cases hok
        simp [hst]
  · intro numStates timesteps inputDim units inputs3
    constructor
    · simp [Recurrent.getInitialStateZeros]
    · intro st hmem s u
      simp only [Recurrent.getInitialStateZeros, List.mem_replicate] at hmem
      rw [hmem.2]
      simp

/-- Witness for C7: a stateful variant of the accumulator layer reuses its
stored state `[3]` and stores the final scan state after the call; the
non-stateful accumulator starts from `get_initial_state`; the zero builder
produces `numStates` all-zero tensors. -/
theorem stateful_initial_and_updated_states_witness :
    ({ accLayer with stateful := true, states := [(3 : ℚ)] } :
        RecurrentLayer ℚ ℚ ℚ).stateful = true ∧
    selectedInitial { accLayer with stateful := true, states := [(3 : ℚ)] }
        [1, 2] none = [(3 : ℚ)] ∧
    accLayer.stateful = false ∧
    selectedInitial accLayer [1, 2] none = accLayer.getInitialState [1, 2] ∧
    (∀ r : CallOut ℚ ℚ,
      Recurrent.call { accLayer with stateful := true, states := [(3 : ℚ)] }
          true [1, 2] none = Except.ok r →
      r.newStoredStates = (kRnn accLayer.step [1, 2] [(3 : ℚ)] [] false).2.2) ∧
    (Recurrent.getInitialStateZeros 2 5 4 7 (fun _ _ _ => 9)).length = 2 ∧
    (∀ st, st ∈ Recurrent.getInitialStateZeros 2 5 4 7 (fun _ _ _ => 9) →
      ∀ s u, st s u = 0) := by
  refine ⟨rfl, ?_, rfl, ?_, ?_, ?_, ?_⟩
  · exact (stateful_initial_and_updated_states (ι := ℚ) (ο := ℚ)).1
      { accLayer with stateful := true, states := [(3 : ℚ)] } [1, 2] rfl
  · exact (stateful_initial_and_updated_states (ι := ℚ) (ο := ℚ)).2.1
      accLayer [1, 2] rfl
  · intro r hok
    exact (stateful_initial_and_updated_states (ι := ℚ) (ο := ℚ)).2.2.1
      { accLayer with stateful := true, states := [(3 : ℚ)] } true [1, 2]
      none r rfl hok
  · exact ((stateful_initial_and_updated_states (ι := ℚ) (σ := ℚ)
      (ο := ℚ)).2.2.2 2 5 4 7 (fun _ _ _ => 9)).1
  · exact ((stateful_initial_and_updated_states (ι := ℚ) (σ := ℚ)
      (ο := ℚ)).2.2.2 2 5 4 7 (fun _ _ _ => 9)).2

theorem statesAt_length {ι σ ο : Type} (step : ι → List σ → ο × List σ)
    (constants : List σ) (xs : List ι) (init : List σ) (n : ℕ)
    (hstep : ∀ xi s, ((step xi s).2).length = n) (hinit : init.length = n) :
    ∀ t, (statesAt step constants xs init t).length = n := by
  intro t
  induction t with
  | zero => exact hinit
  | succ t ih =>
    rw [statesAt]
    rcases h : xs[t]? with _ | xi
    · exact ih
    · exact hstep xi _

/-- C5: the dropout masks are generated once per sequence and the identical
mask is used at every timestep.  First part: for the scan run by
`Recurrent.call`, the state list received by the step function at every
timestep `t` is the threaded states followed by exactly the constants computed
before the scan — `List.drop n` of it is the constants list, independently of
`t` — so a dropout mask placed in the constants (as `get_constants` does)
reaches every timestep unchanged, with no re-sampling.  Second part: in
`_time_distributed_dense` the single sampled dropout matrix is repeated over
the time axis, so at every timestep the same mask multiplies the input slice
before the dense projection. -/
theorem dropout_mask_fixed_per_sequence {ι σ ο : Type} :
    (∀ (step : ι → List σ → ο × List σ) (constants : List σ) (xs : List ι)
        (init : List σ) (n : ℕ),
      (∀ xi s, ((step xi s).2).length = n) → init.length = n →
      ∀ t, List.drop n (statesAt step constants xs init t ++ constants) =
        constants) ∧
    (∀ (d o : ℕ) (x : ℕ → Fin d → ℚ) (w : Fin d → Fin o → ℚ)
        (b : Option (Fin o → ℚ)) (p : ℚ) (sampleMask : Fin d → ℚ),
      0 < p → p < 1 →
      ∀ t j, timeDistributedDense x w b p sampleMask true t j =
        (∑ i, x t i * sampleMask i * w i j) +
          (match b with | some bv => bv j | none => 0)) := by
  constructor
  · intro step constants xs init n hstep hinit t
    rw [← statesAt_length step constants xs init n hstep hinit t]
    exact List.drop_left _ _
  · intro d o x w b p sampleMask hp0 hp1 t j
    simp [timeDistributedDense, hp0, hp1]

/-- Witness for C5: the accumulator step with one constant, and a concrete
time-distributed dense with dropout rate `1/2`. -/
theorem dropout_mask_fixed_per_sequence_witness :
    (∀ xi s, ((accLayer.step xi s).2).length = 1) ∧
    ([(0 : ℚ)] : List ℚ).length = 1 ∧
    (∀ t, List.drop 1 (statesAt accLayer.step [(7 : ℚ)] [1, 2] [0] t ++ [7]) =
      [(7 : ℚ)]) ∧
    (0 : ℚ) < 1 / 2 ∧ (1 : ℚ) / 2 < 1 ∧
    (∀ t j, timeDistributedDense (fun _ _ => (3 : ℚ))
        (fun _ _ => (1 : ℚ)) (none : Option (Fin 1 → ℚ)) (1 / 2)
        (fun _ : Fin 1 => (2 : ℚ)) true t j =
      (∑ _i : Fin 1, (3 : ℚ) * 2 * 1) + 0) := by
    refine ⟨fun xi s => rfl, rfl, ?_, by norm_num, by norm_num, ?_⟩
    · exact (dropout_mask_fixed_per_sequence (ι := ℚ) (ο := ℚ)).1
        accLayer.step [7] [1, 2] [0] 1 (fun xi s => rfl) rfl
    · intro t j
      exact (dropout_mask_fixed_per_sequence (ι := ℚ) (σ := ℚ) (ο := ℚ)).2
        1 1 (fun _ _ => 3) (fun _ _ => 1) none (1 / 2) (fun _ => 2)
        (by norm_num) (by norm_num) t j

/-- C6: dropout is tied to the training phase.  With the training flag false,
`SimpleRNN.get_constants` produces the all-ones mask (when
`implementation != 0` and the rate is inside `(0, 1)`) or the scalar 1
(otherwise) for both the input and the recurrent connection, and the step
computed with those constants is identical to the step of the same layer with
dropout disabled (both rates 0). -/
theorem inference_dropout_constants_ones {d u : ℕ} (implementation : ℕ)
    (dropout recurrentDropout : ℚ) (dSample : Fin d → ℚ) (rSample : Fin u → ℚ) :
    SimpleRNN.getConstants implementation dropout recurrentDropout false
        dSample rSample =
      ( if implementation ≠ 0 ∧ 0 < dropout ∧ dropout < 1 then
          Sum.inr (fun _ => 1)
        else Sum.inl 1,
        if 0 < recurrentDropout ∧ recurrentDropout < 1 then
          Sum.inr (fun _ => 1)
        else Sum.inl 1 ) ∧
    (∀ (activation : ℚ → ℚ) (kernel : Fin d → Fin u → ℚ)
        (bias : Option (Fin u → ℚ)) (recurrentKernel : Fin u → Fin u → ℚ)
        (inputs : Fin d → ℚ) (prevOutput : Fin u → ℚ),
      SimpleRNN.step dropout recurrentDropout activation kernel bias
          recurrentKernel inputs prevOutput
          (SimpleRNN.getConstants implementation dropout recurrentDropout false
            dSample rSample).1
          (SimpleRNN.getConstants implementation dropout recurrentDropout false
            dSample rSample).2 =
        SimpleRNN.step 0 0 activation kernel bias recurrentKernel inputs
          prevOutput (Sum.inl 1) (Sum.inl 1)) := by
  constructor
  · simp [SimpleRNN.getConstants]
  · intro activation kernel bias recurrentKernel inputs prevOutput
    funext j
    simp only [SimpleRNN.step, SimpleRNN.getConstants, Bool.false_eq_true,
      if_false]
    have hq0 : ¬ ((0 : ℚ) < 0 ∧ (0 : ℚ) < 1 ∧ True) := by simp
    by_cases hp : 0 < dropout ∧ dropout < 1 <;>
      by_cases hq : 0 < recurrentDropout ∧ recurrentDropout < 1 <;>
        by_cases him : implementation ≠ 0 <;>
          simp [hp, hq, him, maskFactor]

theorem convex_gate_between (a b z : ℚ) (h0 : 0 ≤ z) (h1 : z ≤ 1) :
    min a b ≤ z * a + (1 - z) * b ∧ z * a + (1 - z) * b ≤ max a b := by
  constructor
  · nlinarith [min_le_left a b, min_le_right a b]
  · nlinarith [le_max_left a b, le_max_right a b]

/-- C4: the new GRU hidden state is `z * h_prev + (1 - z) * candidate` with
`z` the activated update gate, and the new LSTM cell state is
`f * c_prev + i * candidate` with activated gates `f` and `i`; when the gate
value lies in `[0, 1]` each component of the new GRU state lies between the
corresponding components of the previous state and of the candidate, gate
value 1 preserving the previous state exactly and gate value 0 admitting the
candidate fully. -/
theorem gate_convex_combination_update {d u : ℕ} :
    (∀ (P : GRUParams d u) (x : Fin d → ℚ) (h_tm1 : Fin u → ℚ)
        (dp : Fin 3 → Sum ℚ (Fin d → ℚ)) (rdp : Fin 3 → Sum ℚ (Fin u → ℚ))
        (j : Fin u),
      (GRU.step P x h_tm1 dp rdp).1 j =
        GRU.gateZ P dp rdp x h_tm1 j * h_tm1 j +
          (1 - GRU.gateZ P dp rdp x h_tm1 j) * GRU.candidate P dp rdp x h_tm1 j) ∧
    (∀ (Q : LSTMParams d u) (x : Fin d → ℚ) (h_tm1 c_tm1 : Fin u → ℚ)
        (dp : Fin 4 → Sum ℚ (Fin d → ℚ)) (rdp : Fin 4 → Sum ℚ (Fin u → ℚ)),
      (LSTM.step Q x h_tm1 c_tm1 dp rdp).2 =
        [(LSTM.step Q x h_tm1 c_tm1 dp rdp).1,
          LSTM.cellState Q dp rdp x h_tm1 c_tm1] ∧
      ∀ j, LSTM.cellState Q dp rdp x h_tm1 c_tm1 j =
        LSTM.gateF Q dp rdp x h_tm1 j * c_tm1 j +
          LSTM.gateI Q dp rdp x h_tm1 j * LSTM.cellCandidate Q dp rdp x h_tm1 j) ∧
    (∀ (P : GRUParams d u) (x : Fin d → ℚ) (h_tm1 : Fin u → ℚ)
        (dp : Fin 3 → Sum ℚ (Fin d → ℚ)) (rdp : Fin 3 → Sum ℚ (Fin u → ℚ))
        (j : Fin u),
      0 ≤ GRU.gateZ P dp rdp x h_tm1 j → GRU.gateZ P dp rdp x h_tm1 j ≤ 1 →
      min (h_tm1 j) (GRU.candidate P dp rdp x h_tm1 j) ≤
          (GRU.step P x h_tm1 dp rdp).1 j ∧
        (GRU.step P x h_tm1 dp rdp).1 j ≤
          max (h_tm1 j) (GRU.candidate P dp rdp x h_tm1 j)) ∧
    (∀ (P : GRUParams d u) (x : Fin d → ℚ) (h_tm1 : Fin u → ℚ)
        (dp : Fin 3 → Sum ℚ (Fin d → ℚ)) (rdp : Fin 3 → Sum ℚ (Fin u → ℚ))
        (j : Fin u),
      GRU.gateZ P dp rdp x h_tm1 j = 1 →
        (GRU.step P x h_tm1 dp rdp).1 j = h_tm1 j) ∧
    (∀ (P : GRUParams d u) (x : Fin d → ℚ) (h_tm1 : Fin u → ℚ)
        (dp : Fin 3 → Sum ℚ (Fin d → ℚ)) (rdp : Fin 3 → Sum ℚ (Fin u → ℚ))
        (j : Fin u),
      GRU.gateZ P dp rdp x h_tm1 j = 0 →
        (GRU.step P x h_tm1 dp rdp).1 j = GRU.candidate P dp rdp x h_tm1 j) := by
  refine ⟨fun P x h_tm1 dp rdp j => rfl, fun Q x h_tm1 c_tm1 dp rdp =>
    ⟨rfl, fun j => rfl⟩, ?_, ?_, ?_⟩
  · intro P x h_tm1 dp rdp j h0 h1
    exact convex_gate_between (h_tm1 j) (GRU.candidate P dp rdp x h_tm1 j)
      (GRU.gateZ P dp rdp x h_tm1 j) h0 h1
  · intro P x h_tm1 dp rdp j hz
    show GRU.gateZ P dp rdp x h_tm1 j * h_tm1 j +
      (1 - GRU.gateZ P dp rdp x h_tm1 j) * GRU.candidate P dp rdp x h_tm1 j =
        h_tm1 j
    rw [hz]
    ring
  · intro P x h_tm1 dp rdp j hz
    show GRU.gateZ P dp rdp x h_tm1 j * h_tm1 j +
      (1 - GRU.gateZ P dp rdp x h_tm1 j) * GRU.candidate P dp rdp x h_tm1 j =
        GRU.candidate P dp rdp x h_tm1 j
    rw [hz]
    ring

/-- Witness for C4: width-1 GRU layers whose update gate is constantly 0
(resp. 1): the new state lies between the previous state and the candidate,
gate 1 preserves the previous state and gate 0 admits the candidate. -/
theorem gate_convex_combination_update_witness :
    ((0 : ℚ) ≤ GRU.gateZ gruZeroGateParams gw3d gw3u xw hw 0) ∧
    (GRU.gateZ gruZeroGateParams gw3d gw3u xw hw 0 ≤ 1) ∧
    (min (hw 0) (GRU.candidate gruZeroGateParams gw3d gw3u xw hw 0) ≤
        (GRU.step gruZeroGateParams xw hw gw3d gw3u).1 0 ∧
      (GRU.step gruZeroGateParams xw hw gw3d gw3u).1 0 ≤
        max (hw 0) (GRU.candidate gruZeroGateParams gw3d gw3u xw hw 0)) ∧
    (GRU.gateZ gruOneGateParams gw3d gw3u xw hw 0 = 1) ∧
    ((GRU.step gruOneGateParams xw hw gw3d gw3u).1 0 = hw 0) ∧
    (GRU.gateZ gruZeroGateParams gw3d gw3u xw hw 0 = 0) ∧
    ((GRU.step gruZeroGateParams xw hw gw3d gw3u).1 0 =
      GRU.candidate gruZeroGateParams gw3d gw3u xw hw 0) := by
  refine ⟨le_refl 0, zero_le_one, ?_, rfl, ?_, rfl, ?_⟩
  · exact (gate_convex_combination_update (d := 1) (u := 1)).2.2.1
      gruZeroGateParams xw hw gw3d gw3u 0 (le_refl 0) zero_le_one
  · exact (gate_convex_combination_update (d := 1) (u := 1)).2.2.2.1
      gruOneGateParams xw hw gw3d gw3u 0 rfl
  · exact (gate_convex_combination_update (d := 1) (u := 1)).2.2.2.2
      gruZeroGateParams xw hw gw3d gw3u 0 rfl

theorem setStatesLoop_ne_attributeError (b u : ℕ) :
    ∀ (ss : List (Option NpArr)) (vs : List NpArr) (start : ℕ),
      (setStatesLoop b u ss vs start).2 ≠ some ResetErr.attributeError := by
  intro ss vs
  induction vs generalizing ss with
  | nil => intro start; simp [setStatesLoop]
  | cons v vs ih =>
    intro start
    cases ss with
    | nil => simp [setStatesLoop]
    | cons s ss =>
      by_cases hsh : npShape v ≠ (b, u)
      · simp [setStatesLoop, hsh]
      · simp only [setStatesLoop, hsh, if_false, reduceIte]
        exact ih ss (start + 1)

theorem setStatesLoop_stops_at_first_bad (b u : ℕ) :
    ∀ (k : ℕ) (ss : List (Option NpArr)) (vs : List NpArr) (start : ℕ),
      vs.length = ss.length → k < vs.length →
      (∀ i a, i < k → vs[i]? = some a → npShape a = (b, u)) →
      (∀ a, vs[k]? = some a → npShape a ≠ (b, u)) →
      setStatesLoop b u ss vs start =
        ((vs.take k).map some ++ ss.drop k,
          some (ResetErr.valueErrorShape (start + k))) := by
  intro k
  induction k with
  | zero =>
    intro ss vs start hlen hk hgood hbad
    cases vs with
    | nil => simp at hk
    | cons v vs =>
      cases ss with
      | nil => simp at hlen
      | cons s ss =>
        have hb : npShape v ≠ (b, u) := hbad v (by simp)
        simp [setStatesLoop, hb]
  | succ k ih =>
    intro ss vs start hlen hk hgood hbad
    cases vs with
    | nil => simp at hk
    | cons v vs =>
      cases ss with
      | nil => simp at hlen
      | cons s ss =>
        have hv : npShape v = (b, u) :=
          hgood 0 v (Nat.succ_pos k) (by simp)
        have hst1 : start + (k + 1) = start + 1 + k := by omega
        rw [hst1]
        have hrec := ih ss vs (start + 1)
          (by simpa using hlen) (by simpa using hk)
          (fun i a hi ha => hgood (i + 1) a (Nat.succ_lt_succ hi)
            (by simpa using ha))
          (fun a ha => hbad a (by simpa using ha))
        simp only [setStatesLoop, hv, ne_eq, not_true_eq_false, if_false,
          reduceIte, hrec]
        simp [List.take_succ_cons, List.drop_succ_cons]

/-- C10 counterexample: a stateful layer with two stored states, reset with a
pair of values whose second entry has the wrong shape, raises `ValueError` but
has already updated the first stored state — contradicting the claim that no
state before the mismatching one is updated. -/
theorem resetStates_partial_update_counterexample :
    Recurrent.resetStates
        { stateful := true, batchSize := some 1, units := 1,
          states := [some [[0]], some [[0]]] }
        (some [[[5]], [[1, 2]]]) =
      ([some [[5]], some [[0]]], some (ResetErr.valueErrorShape 1)) ∧
    ([some [[5]], some [[0]]] : List (Option NpArr)) ≠
      [some [[0]], some [[0]]] := by
  constructor
  · decide
  · decide

/-- C10 (amended): `reset_states` raises `AttributeError` exactly when the
layer is not stateful, leaving the stored states unchanged; a stateful layer
with a known batch size and no argument sets every stored state to the
all-zero array of shape `(batch_size, units)`; passing states of the wrong
count raises `ValueError` with no state updated; passing states with a shape
mismatch at index `k` (earlier shapes correct) raises `ValueError` after the
states at indices before `k` have already been updated to the passed values,
while the states from `k` on keep their previous values. -/
theorem resetStates_error_behavior (L : ResetLayer) :
    (∀ arg, L.stateful = false →
      (Recurrent.resetStates L arg).2 = some ResetErr.attributeError ∧
      (Recurrent.resetStates L arg).1 = L.states) ∧
    (∀ arg, L.stateful = true →
      (Recurrent.resetStates L arg).2 ≠ some ResetErr.attributeError) ∧
    (∀ b, L.stateful = true → L.batchSize = some b → b ≠ 0 →
      Recurrent.resetStates L none =
        (L.states.map fun _ => some (npZeros b L.units), none)) ∧
    (∀ b vals, L.stateful = true → L.batchSize = some b → b ≠ 0 →
      L.states.headD none ≠ none → vals.length ≠ L.states.length →
      Recurrent.resetStates L (some vals) =
        (L.states,
          some (ResetErr.valueErrorCount L.states.length vals.length))) ∧
    (∀ b vals k, L.stateful = true → L.batchSize = some b → b ≠ 0 →
      L.states.headD none ≠ none → vals.length = L.states.length →
      k < vals.length →
      (∀ i a, i < k → vals[i]? = some a → npShape a = (b, L.units)) →
      (∀ a, vals[k]? = some a → npShape a ≠ (b, L.units)) →
      Recurrent.resetStates L (some vals) =
        ((vals.take k).map some ++ L.states.drop k,
          some (ResetErr.valueErrorShape k))) := by
  refine ⟨?_, ?_, ?_, ?_, ?_⟩
  · intro arg hst
    simp [Recurrent.resetStates, hst]
  · intro arg hst
    simp only [Recurrent.resetStates, hst, Bool.true_eq_false, if_false,
      reduceIte]
    rcases hb : L.batchSize with _ | b
    · simp
    · dsimp only
      by_cases hb0 : b = 0
      · simp [hb0]
      · rw [if_neg hb0]
        by_cases hh : L.states.headD none = none
        · rw [if_pos hh]
          simp
        · rw [if_neg hh]
          rcases arg with _ | vals
          · simp
          · dsimp only
            by_cases hc : vals.length ≠ L.states.length
            · rw [if_pos hc]
              simp
            · rw [if_neg hc]
              exact setStatesLoop_ne_attributeError _ _ L.states vals 0
  · intro b hst hb hb0
    simp only [Recurrent.resetStates, hst, Bool.true_eq_false, if_false,
      reduceIte, hb]
    rw [if_neg hb0]
    by_cases hh : L.states.headD none = none
    · rw [if_pos hh]
    · rw [if_neg hh]
  · intro b vals hst hb hb0 hh hc
    simp only [Recurrent.resetStates, hst, Bool.true_eq_false, if_false,
      reduceIte, hb]
    rw [if_neg hb0, if_neg hh, if_pos hc]
  · intro b vals k hst hb hb0 hh hlen hk hgood hbad
    simp only [Recurrent.resetStates, hst, Bool.true_eq_false, if_false,
      reduceIte, hb]
    rw [if_neg hb0, if_neg hh, if_neg (by omega)]
    have := setStatesLoop_stops_at_first_bad b L.units k L.states vals 0
      hlen hk hgood hbad
    simpa using this

/-- Witness for C10 (amended): a concrete stateful two-state layer exercising
the attribute-error, zero-reset, count-mismatch and shape-mismatch branches. -/
theorem resetStates_error_behavior_witness :
    ((Recurrent.resetStates
        { stateful := false, batchSize := some 1, units := 1,
          states := [some [[0]]] } none).2 = some ResetErr.attributeError ∧
      (Recurrent.resetStates
        { stateful := false, batchSize := some 1, units := 1,
          states := [some [[0]]] } none).1 = [some [[0]]]) ∧
    (Recurrent.resetStates
        { stateful := true, batchSize := some 1, units := 1,
          states := [some [[0]], some [[0]]] } none).2 ≠
      some ResetErr.attributeError ∧
    Recurrent.resetStates
        { stateful := true, batchSize := some 1, units := 1,
          states := [some [[0]], some [[0]]] } none =
      ([some (npZeros 1 1), some (npZeros 1 1)], none) ∧
    Recurrent.resetStates
        { stateful := true, batchSize := some 1, units := 1,
          states := [some [[0]], some [[0]]] } (some [[[5]]]) =
      ([some [[0]], some [[0]]], some (ResetErr.valueErrorCount 2 1)) ∧
    Recurrent.resetStates
        { stateful := true, batchSize := some 1, units := 1,
          states := [some [[0]], some [[0]]] } (some [[[5]], [[1, 2]]]) =
      ([some [[5]], some [[0]]], some (ResetErr.valueErrorShape 1)) := by
  refine ⟨?_, ?_, ?_, ?_, ?_⟩
  · exact (resetStates_error_behavior
      { stateful := false, batchSize := some 1, units := 1,
        states := [some [[0]]] }).1 none rfl
  · exact (resetStates_error_behavior
      { stateful := true, batchSize := some 1, units := 1,
        states := [some [[0]], some [[0]]] }).2.1 none rfl
  · have := (resetStates_error_behavior
      { stateful := true, batchSize := some 1, units := 1,
        states := [some [[0]], some [[0]]] }).2.2.1 1 rfl rfl one_ne_zero
    simpa using this
  · have := (resetStates_error_behavior
      { stateful := true, batchSize := some 1, units := 1,
        states := [some [[0]], some [[0]]] }).2.2.2.1 1 [[[5]]] rfl rfl
      one_ne_zero (by decide) (by decide)
    simpa using this
  · have := (resetStates_error_behavior
      { stateful := true, batchSize := some 1, units := 1,
        states := [some [[0]], some [[0]]] }).2.2.2.2 1 [[[5]], [[1, 2]]] 1
      rfl rfl one_ne_zero (by decide) (by decide) (by decide)
      (by
        intro i a hi ha
        have hi0 : i = 0 := by omega
        subst hi0
        simp only [List.getElem?_cons_zero, Option.some.injEq] at ha
        subst ha
        decide)
      (by
        intro a ha
        simp only [List.getElem?_cons_succ, List.getElem?_cons_zero,
          Option.some.injEq] at ha
        subst ha
        decide)
    simpa using this

end Keras
